import Mathlib

/-!
Verification development for the `chat-bot` package of `idobata-analyst`
(`src/packages/chat-bot/src/index.ts`).  The orchestration pipeline of that
file is embedded shallowly: pure helpers become Lean functions, and every
external collaborator (the generative model, the backend REST API, the
platform JSON parser) becomes an explicit oracle argument of type
`Except Unit _` or a function returning such a value, mirroring the
`try`/`catch` structure of the source.  Machine text is `String`; the two
JavaScript string primitives the code relies on (`toLowerCase`, `trim`) are
embedded as structurally recursive functions on the character list so that
concrete instances evaluate inside the kernel.
-/

/-- Embedding of JavaScript `s.toLowerCase()` (ASCII case folding suffices for
the literals compared in the source). -/
def jsToLower (s : String) : String := String.mk (s.data.map Char.toLower)

/-- Embedding of JavaScript `s.trim()`: drop whitespace from both ends. -/
def jsTrim (s : String) : String :=
  String.mk (((s.data.dropWhile Char.isWhitespace).reverse.dropWhile Char.isWhitespace).reverse)

/-- Message sender tag, the `'user' | 'bot'` union of `ChatMessage.sender`. -/
inductive Sender where
  | user
  | bot
deriving DecidableEq

/-- Modelled from the spec: `ChatMessage` is imported from `./types`, a file
that is not under `src/`.  Spec §3 gives `{id, sender, content, timestamp}`;
the orchestrator reads only `sender` and `content`, so `id` and `timestamp`
(an allocation counter and a wall-clock value) are omitted from the model. -/
structure ChatMessage where
  sender : Sender
  content : String
deriving DecidableEq

/-- Modelled from the spec: `Project['questions']` elements come from
`./types` (not under `src/`); spec §3 gives `{id, text, ...}` and the core
reads `id` and `text`. -/
structure Question where
  id : String
  text : String
deriving DecidableEq

/-- One stance entry of the backend comment response (`CommentResponse`,
lines 80-101 of the source).  `confidence` is a JavaScript number; it is
embedded as a rational. -/
structure Stance where
  questionId : String
  stanceId : String
  confidence : Rat
deriving DecidableEq

/-- One entry of `CommentResponse.analyzedQuestions` (source lines 92-100). -/
structure AnalyzedQuestion where
  id : String
  text : String
  stances : List Stance
deriving DecidableEq

/-- The backend `POST /projects/:id/comments` response body (source lines
80-101), restricted to the fields the orchestrator reads: `comment._id` and
`analyzedQuestions`. -/
structure CommentResponse where
  commentId : String
  analyzedQuestions : List AnalyzedQuestion
deriving DecidableEq

/-- One element of the `relatedQuestions` list built by `analyzeUserMessage`
(source lines 109-116 and 182-195). -/
structure RelatedQuestion where
  id : String
  text : String
  stanceId : String
  confidence : Rat
deriving DecidableEq

/-- Return value of `analyzeUserMessage` (source lines 107-117): both fields
are optional (`undefined` in the source becomes `none`). -/
structure AnalysisResult where
  commentId : Option String
  relatedQuestions : Option (List RelatedQuestion)
deriving DecidableEq

/-- The empty object `{}` returned on every degraded path of
`analyzeUserMessage`. -/
def emptyAnalysis : AnalysisResult := { commentId := none, relatedQuestions := none }

/-- One role-tagged turn of the conversation submitted to the generative
model (the element shape of the `messages` arrays, source lines 120-143 and
241-283). -/
structure GeminiMessage where
  role : String
  text : String
deriving DecidableEq

/-- A JSON value, the possible results of the platform `JSON.parse` applied
to the model's claim-extraction reply.  `JSON.parse` itself is a platform
builtin, so the parser is an oracle `String → Option JsonValue` in the
functions below; `none` stands for a thrown `SyntaxError`. -/
inductive JsonValue where
  | null
  | bool (b : Bool)
  | num (q : Rat)
  | str (s : String)
  | arr (elems : List JsonValue)
  | obj (fields : List (String × JsonValue))

/-- JavaScript property access `v.k` on a parsed JSON value: defined only on
objects, `undefined` (here `none`) on every other shape.  (On `null` the
source would throw a `TypeError`, which the surrounding `catch` turns into
the same degraded result as a failed `typeof` check, so `none` is the right
common abstraction.) -/
def getProp : JsonValue → String → Option JsonValue
  | JsonValue.obj fields, k => fields.lookup k
  | _, _ => none

/-- Outcome of the claim-extraction validation block (source lines 156-172):
either no claim (`hasContent` false) or a claim with its normalized text. -/
inductive ClaimAnalysis where
  | noClaim
  | claim (content : String)
deriving DecidableEq

/-- The `JSON.parse` + validation block of `analyzeUserMessage` (source lines
153-168): `none` is the `catch` path (parse error, `hasContent` missing or
not a boolean, or `hasContent` true with `content` not a string). -/
def validateAnalysis : Option JsonValue → Option ClaimAnalysis
  | none => none
  | some v =>
    match getProp v "hasContent" with
    | some (JsonValue.bool false) => some ClaimAnalysis.noClaim
    | some (JsonValue.bool true) =>
      match getProp v "content" with
      | some (JsonValue.str s) => some (ClaimAnalysis.claim s)
      | _ => none
    | _ => none

/-- `history.slice(-5)`: the most recent `n` entries of a list. -/
def lastN (n : Nat) (l : List α) : List α := l.drop (l.length - n)

/-- `formatChatHistory` (source lines 76-78). -/
def formatChatHistory (history : List ChatMessage) : String :=
  String.intercalate "\n"
    (history.map fun msg =>
      (if msg.sender = Sender.user then "ユーザー" else "アシスタント") ++ ": " ++ msg.content)

/-- The claim-extraction instruction prompt of `analyzeUserMessage` (source
lines 120-143), embedding `formatChatHistory(history.slice(-5))` and the
newest user message. -/
def buildExtractionPrompt (history : List ChatMessage) (userMessage : String) : String :=
  "\n以下の会話履歴とユーザーの最新の発言を分析し、厳密なJSON形式で返答してください。余分な説明は不要です。\n\n会話履歴：\n"
  ++ formatChatHistory (lastN 5 history)
  ++ "\n\n最新の発言：\n"
  ++ userMessage
  ++ "\n\n必要な分析：\n最新の発言の主張を、会話の文脈を踏まえて整理し、以下のJSON形式で返してください。\n主張が明確な場合：\x7b\"hasContent\":true,\"content\":\"文脈を考慮して整理された内容\"\x7d\n主張が不明確/存在しない場合(例:挨拶,あいずち等)：\x7b\"hasContent\":false\x7d\n\n注意：\n- 返答は必ず上記のJSON形式のみとし、説明文や改行を含めないでください\n- JSON内の文字列は必ずダブルクォートで囲んでください\n- 最新の発言のみを分析対象とし、会話履歴は文脈理解のために使用してください\n"

/-- `analyzeUserMessage` (source lines 103-205).  Oracles: `jsonParse` for
the platform `JSON.parse`; `extractCall` for the Gemini `generateContent`
call on the extraction prompt (an `Except.error` is any throw from that call,
caught by the outer `catch`); `backendPost` for
`POST /projects/:id/comments` applied to the extracted claim content.  The
second component of the result records whether the backend POST was reached,
an observable this embedding makes explicit. -/
def analyzeUserMessage (userMessage : String) (history : List ChatMessage)
    (jsonParse : String → Option JsonValue)
    (extractCall : String → Except Unit String)
    (backendPost : String → Except Unit CommentResponse) :
    AnalysisResult × Bool :=
  match extractCall (buildExtractionPrompt history userMessage) with
  | Except.error _ => (emptyAnalysis, false)
  | Except.ok raw =>
    match validateAnalysis (jsonParse (jsTrim raw)) with
    | none => (emptyAnalysis, false)
    | some ClaimAnalysis.noClaim => (emptyAnalysis, false)
    | some (ClaimAnalysis.claim content) =>
      match backendPost content with
      | Except.error _ => (emptyAnalysis, true)
      | Except.ok resp =>
        let relatedQuestions := resp.analyzedQuestions.filterMap fun q =>
          match q.stances with
          | [] => none
          | stance :: _ =>
            some { id := q.id, text := q.text,
                   stanceId := stance.stanceId, confidence := stance.confidence }
        ({ commentId := some resp.commentId,
           relatedQuestions :=
             if relatedQuestions.length > 0 then some relatedQuestions else none }, true)

/-- The combiner of the `reduce` on source lines 220-222: keep the previous
entry unless the current one has strictly greater confidence. -/
def bestStep (prev current : RelatedQuestion) : RelatedQuestion :=
  if current.confidence > prev.confidence then current else prev

/-- The primary-question selection of `generateResponse` (source lines
219-222): `relatedQuestions.reduce(...)`, a left fold seeded with the first
element; `none` only on the empty list (where the source would throw, but the
call site is guarded by `length > 0`). -/
def selectPrimary : List RelatedQuestion → Option RelatedQuestion
  | [] => none
  | x :: xs => some (xs.foldl bestStep x)

/-- JavaScript `Number.prototype.toFixed(1)` on a non-negative rational:
round half away from zero at one decimal place. -/
def toFixed1 (x : Rat) : String :=
  let n : Int := ⌊x * 10 + 1 / 2⌋
  toString (n / 10) ++ "." ++ toString (n % 10)

/-- The stance-context block of `generateResponse` (source lines 229-235);
`report` is the backend stance-analysis payload as serialized by
`JSON.stringify(reportResponse.data, null, 2)`. -/
def mkContextBlock (primary : RelatedQuestion) (report : String) : String :=
  "\n選択された論点「" ++ primary.text ++ "」に関する分析レポート：\n"
  ++ report
  ++ "\n\nあなたの立場: " ++ primary.stanceId
  ++ "\n確信度: " ++ toFixed1 (primary.confidence * 100) ++ "%\n"

/-- The leading instruction turn of `generateResponse` (source lines
244-269), embedding the numbered question list and the optional context
block. -/
def mkSystemPrompt (questions : List Question) (contextualInfo : String) : String :=
  "\nあなたは議論を深めるための議論相手です。以下の論点に基づいて、ユーザーの発言を分析し、\n適切な論点に誘導しながら建設的な議論を展開してください。\n\n【論点一覧】\n"
  ++ String.intercalate "\n" (questions.enum.map fun p => toString (p.1 + 1) ++ ". " ++ p.2.text)
  ++ "\n\n"
  ++ (if contextualInfo ≠ "" then contextualInfo else "")
  ++ "\n\n以下の点を意識して返答を生成してください：\n1. ユーザーの発言が論点のいずれかに関連している場合：\n   - 分析レポートを参考に、ユーザーと異なる立場からの意見を提示\n   - ユーザーと異なる立場の根拠や具体例を示しながら、建設的な議論を展開\n2. ユーザーの発言が論点から外れている場合：\n   - 最も関連性の高い論点に自然に誘導\n   - その論点が重要である理由や、議論する価値を説明\n3. 常に建設的で具体的な議論となるよう導く\n4. 一方的な主張を避け、ユーザーの意見を引き出すよう心がける\n\n回答の長さや温度感は、相手に完全に合わせて回答を生成してください。長さは最大でも2~3文.\n\n重要指示：初対面の人との自然な会話のように、温かくて親しみやすい口調で返答してください。感情を込めた表現は歓迎しますが、絵文字の使用は避けてください。\n"

/-- The history turns appended to the generation conversation (source lines
272-277): the last 5 history entries, `user` sender mapped to the `user`
role and `bot` sender to the `model` role. -/
def buildHistoryTurns (history : List ChatMessage) : List GeminiMessage :=
  (lastN 5 history).map fun msg =>
    { role := if msg.sender = Sender.user then "user" else "model", text := msg.content }

/-- The fixed apology returned by the `catch` of `generateResponse` (source
line 305). -/
def apologyMessage : String :=
  "すみません、応答の生成中にエラーが発生しました。APIキーの設定や権限を確認してください。"

/-- The context-resolution block of `generateResponse` (source lines
216-239): when the analysis produced a non-empty `relatedQuestions` list,
select the primary question and fetch its stance-analysis report; a fetch
failure (the inner `catch` on line 236) leaves `contextualInfo` empty. -/
def resolveContext (analysis : AnalysisResult)
    (reportFetch : String → Except Unit String) : String :=
  match analysis.relatedQuestions with
  | none => ""
  | some rqs =>
    if rqs.length > 0 then
      match selectPrimary rqs with
      | none => ""
      | some primary =>
        match reportFetch primary.id with
        | Except.error _ => ""
        | Except.ok report => mkContextBlock primary report
    else ""

/-- The conversation assembled by `generateResponse` (source lines 241-283):
leading instruction turn, last-5 history turns, then the current user
message. -/
def buildConversation (questions : List Question) (contextualInfo : String)
    (history : List ChatMessage) (userMessage : String) : List GeminiMessage :=
  { role := "user", text := mkSystemPrompt questions contextualInfo }
    :: buildHistoryTurns history
    ++ [{ role := "user", text := userMessage }]

/-- `generateResponse` (source lines 207-307).  Oracles: `jsonParse`,
`extractCall`, `backendPost` are threaded to `analyzeUserMessage`;
`reportFetch` is `GET /projects/:id/questions/:qid/stance-analysis` keyed by
the selected question id; `genCall` is the Gemini `generateContent` call on
the assembled conversation (its `Except.error` is any throw reaching the
outer `catch` on line 297). -/
def generateResponse (userMessage : String) (questions : List Question)
    (history : List ChatMessage)
    (jsonParse : String → Option JsonValue)
    (extractCall : String → Except Unit String)
    (backendPost : String → Except Unit CommentResponse)
    (reportFetch : String → Except Unit String)
    (genCall : List GeminiMessage → Except Unit String) : String :=
  let analysis := (analyzeUserMessage userMessage history jsonParse extractCall backendPost).1
  let contextualInfo := resolveContext analysis reportFetch
  match genCall (buildConversation questions contextualInfo history userMessage) with
  | Except.error _ => apologyMessage
  | Except.ok t => t

/-- `getProjectQuestions` (source lines 59-67): `Except.error` is a thrown
HTTP failure (network error or non-2xx), caught and turned into `[]`;
`Except.ok none` is a 2xx body whose `questions` field is absent or `null`
(`response.data.questions || []`). -/
def getProjectQuestions : Except Unit (Option (List Question)) → List Question
  | Except.error _ => []
  | Except.ok none => []
  | Except.ok (some qs) => qs

/-- `formatQuestionsList` (source lines 69-74). -/
def formatQuestionsList (questions : List Question) : String :=
  if questions.length = 0 then
    "論点はまだ設定されていません。"
  else
    "論点一覧:\n"
      ++ String.intercalate "\n"
          (questions.enum.map fun p => toString (p.1 + 1) ++ ". " ++ p.2.text)

/-- Modelled from the spec: the `SessionManager` store
(`src/packages/chat-bot/src/services/SessionManager.ts` is not under
`src/`).  Spec §4.2: a process-wide map from session id to the session's
ordered history; `addMessage` appends and returns the new message, or
returns absent without mutation when the id is unknown. -/
abbrev SessionStore := List (String × List ChatMessage)

/-- Modelled from the spec: `SessionManager.addMessage(sessionId, content,
sender)` (spec §4.2) — append a `ChatMessage` to the named session's history
and return it together with the updated store, or `none` (store unchanged)
when the session id is unknown. -/
def storeAddMessage : SessionStore → String → String → Sender →
    Option (ChatMessage × SessionStore)
  | [], _, _, _ => none
  | (k, v) :: t, sessionId, content, sender =>
    if k = sessionId then
      some ({ sender := sender, content := content },
            (k, v ++ [{ sender := sender, content := content }]) :: t)
    else
      match storeAddMessage t sessionId content sender with
      | none => none
      | some (m, t2) => some (m, (k, v) :: t2)

/-- The observable effects of processing one inbound `"message"` frame
(`ws.send` of an error frame, `ws.send` of a message frame, whether
`generateResponse` was invoked, whether the handler closed the socket —
the source never does). -/
structure TurnEffects where
  errorFrame : Option String
  outFrame : Option ChatMessage
  generateInvoked : Bool
  connectionClosed : Bool
deriving DecidableEq

/-- The `message.type === 'message'` branch of the `handleConnection` message
handler (source lines 316-352).  `fetchProject` is the
`getProjectQuestions` oracle; `generate` abstracts the
`generateResponse` call, receiving the fetched questions and the session
history as read after the user append (`session.history` on line 343
already contains the just-appended user message). -/
def handleMessageFrame (store : SessionStore) (sessionId : String) (content : String)
    (fetchProject : Except Unit (Option (List Question)))
    (generate : List Question → List ChatMessage → String) :
    TurnEffects × SessionStore :=
  match storeAddMessage store sessionId content Sender.user with
  | none =>
    ({ errorFrame := some "Session not found", outFrame := none,
       generateInvoked := false, connectionClosed := false }, store)
  | some (_, store1) =>
    match List.lookup sessionId store1 with
    | none =>
      ({ errorFrame := some "Session not found", outFrame := none,
         generateInvoked := false, connectionClosed := false }, store1)
    | some history =>
      let questions := getProjectQuestions fetchProject
      let isCmd := jsToLower content == "questions"
      let response := if isCmd then formatQuestionsList questions
                      else generate questions history
      match storeAddMessage store1 sessionId response Sender.bot with
      | none =>
        ({ errorFrame := none, outFrame := none,
           generateInvoked := !isCmd, connectionClosed := false }, store1)
      | some (botMsg, store2) =>
        ({ errorFrame := none, outFrame := some botMsg,
           generateInvoked := !isCmd, connectionClosed := false }, store2)

/-- Literal `/project/` as a character list, for the upgrade-path matcher. -/
def projLit : List Char := ("/project/").toList

/-- Literal `/chat` as a character list, for the upgrade-path matcher. -/
def chatLit : List Char := ("/chat").toList

/-- Strip an exact literal from the front of a character list. -/
def chopLit : List Char → List Char → Option (List Char)
  | [], s => some s
  | _ :: _, [] => none
  | l :: ls, c :: cs => if c = l then chopLit ls cs else none

/-- The anchored regular expression of source line 45,
`^\/project\/([^\/]+)\/chat$`, as a function from the request path to the
captured project id: after the literal `/project/` the capture is the
maximal run of non-`/` characters, which must be non-empty and be followed
by exactly the literal `/chat`. -/
def matchProjectChatPath (path : List Char) : Option (List Char) :=
  match chopLit projLit path with
  | none => none
  | some rest =>
    if rest.takeWhile (fun c => c != '/') ≠ [] ∧ rest.dropWhile (fun c => c != '/') = chatLit
    then some (rest.takeWhile (fun c => c != '/'))
    else none

/-- Outcome of one connection upgrade request. -/
inductive UpgradeOutcome where
  | accepted (projectId : List Char)
  | destroyed
deriving DecidableEq

/-- The `server.on('upgrade')` handler (source lines 41-57): `none` is an
absent `request.url` (the optional chaining on line 45 then yields no match);
on a regex match the handshake completes and a project-scoped session is
created, otherwise `socket.destroy()`. -/
def handleUpgrade : Option (List Char) → UpgradeOutcome
  | none => UpgradeOutcome.destroyed
  | some p =>
    match matchProjectChatPath p with
    | none => UpgradeOutcome.destroyed
    | some pid => UpgradeOutcome.accepted pid

/-! ## Helper lemmas -/

lemma lastN_length_le (n : Nat) (l : List α) : (lastN n l).length ≤ n := by
  simp only [lastN, List.length_drop]
  omega

lemma lastN_idem (n : Nat) (l : List α) : lastN n (lastN n l) = lastN n l := by
  unfold lastN
  rw [List.length_drop]
  have h : l.length - (l.length - n) - n = 0 := by omega
  rw [h, List.drop_zero]

lemma lastN_subset (n : Nat) (l : List α) : lastN n l ⊆ l := List.drop_subset _ l


lemma storeAddMessage_unknown (store : SessionStore) (sid content : String)
    (sender : Sender) (h : List.lookup sid store = none) :
    storeAddMessage store sid content sender = none := by
  induction store with
  | nil => rfl
  | cons kv t ih =>
    obtain ⟨k, v⟩ := kv
    by_cases hk : k = sid
    · subst hk
      simp [List.lookup] at h
    · have hbeq : (sid == k) = false := beq_eq_false_iff_ne.mpr fun hs => hk hs.symm
      simp only [List.lookup, hbeq] at h
      simp only [storeAddMessage, if_neg hk, ih h]

lemma storeAddMessage_known (store : SessionStore) (sid content : String)
    (sender : Sender) (hist : List ChatMessage)
    (h : List.lookup sid store = some hist) :
    ∃ store2,
      storeAddMessage store sid content sender =
        some ({ sender := sender, content := content }, store2) ∧
      List.lookup sid store2 =
        some (hist ++ [{ sender := sender, content := content }]) := by
  induction store with
  | nil => simp [List.lookup] at h
  | cons kv t ih =>
    obtain ⟨k, v⟩ := kv
    by_cases hk : k = sid
    · subst hk
      simp only [List.lookup, beq_self_eq_true] at h
      injection h with h
      subst h
      refine ⟨(k, v ++ [{ sender := sender, content := content }]) :: t, ?_, ?_⟩
      · simp [storeAddMessage]
      · simp [List.lookup]
    · have hbeq : (sid == k) = false := beq_eq_false_iff_ne.mpr fun hs => hk hs.symm
      simp only [List.lookup, hbeq] at h
      obtain ⟨t2, heq, hlook⟩ := ih h
      refine ⟨(k, v) :: t2, ?_, ?_⟩
      · simp only [storeAddMessage, if_neg hk, heq]
      · simp only [List.lookup, hbeq, hlook]

lemma handleMessageFrame_known_fst (store : SessionStore) (sid content : String)
    (fetchProject : Except Unit (Option (List Question)))
    (generate : List Question → List ChatMessage → String)
    (hist : List ChatMessage) (h : List.lookup sid store = some hist) :
    (handleMessageFrame store sid content fetchProject generate).1 =
      { errorFrame := none,
        outFrame := some
          { sender := Sender.bot,
            content := (if jsToLower content == "questions"
              then formatQuestionsList (getProjectQuestions fetchProject)
              else generate (getProjectQuestions fetchProject)
                     (hist ++ [{ sender := Sender.user, content := content }])) },
        generateInvoked := !(jsToLower content == "questions"),
        connectionClosed := false } := by
  obtain ⟨store1, heq1, hlook1⟩ :=
    storeAddMessage_known store sid content Sender.user hist h
  obtain ⟨store2, heq2, hlook2⟩ :=
    storeAddMessage_known store1 sid
      (if jsToLower content == "questions"
        then formatQuestionsList (getProjectQuestions fetchProject)
        else generate (getProjectQuestions fetchProject)
               (hist ++ [{ sender := Sender.user, content := content }]))
      Sender.bot _ hlook1
  simp only [handleMessageFrame, heq1, hlook1, heq2]

lemma foldl_bestStep_spec (best : RelatedQuestion) (xs : List RelatedQuestion) :
    (xs.foldl bestStep best = best ∧ ∀ x ∈ xs, x.confidence ≤ best.confidence) ∨
    (∃ i, ∃ hi : i < xs.length,
      xs.foldl bestStep best = xs.get ⟨i, hi⟩ ∧
      best.confidence < (xs.get ⟨i, hi⟩).confidence ∧
      (∀ j, ∀ hj : j < xs.length, j < i →
        (xs.get ⟨j, hj⟩).confidence < (xs.get ⟨i, hi⟩).confidence) ∧
      (∀ j, ∀ hj : j < xs.length,
        (xs.get ⟨j, hj⟩).confidence ≤ (xs.get ⟨i, hi⟩).confidence)) := by
  induction xs generalizing best with
  | nil =>
    left
    exact ⟨rfl, by simp⟩
  | cons x t ih =>
    rw [List.foldl_cons]
    by_cases hx : x.confidence > best.confidence
    · have hstep : bestStep best x = x := by simp [bestStep, hx]
      rw [hstep]
      rcases ih x with ⟨heq, hall⟩ | ⟨i, hi, heq, hgt, hfirst, hle⟩
      · right
        refine ⟨0, by simp, by simpa using heq, by simpa using hx, ?_, ?_⟩
        · intro j hj hji
          omega
        · intro j hj
          cases j with
          | zero => exact le_refl _
          | succ m =>
            have hm : m < t.length := by simpa using hj
            have : t.get ⟨m, hm⟩ ∈ t := List.get_mem t _ _
            exact hall _ this
      · right
        refine ⟨i + 1, by simpa using Nat.succ_lt_succ hi, heq, lt_trans hx hgt, ?_, ?_⟩
        · intro j hj hji
          cases j with
          | zero => exact hgt
          | succ m =>
            have hm : m < t.length := by simpa using hj
            exact hfirst m hm (by omega)
        · intro j hj
          cases j with
          | zero => exact le_of_lt hgt
          | succ m =>
            have hm : m < t.length := by simpa using hj
            exact hle m hm
    · have hxle : x.confidence ≤ best.confidence := le_of_not_lt hx
      have hstep : bestStep best x = best := by simp [bestStep, hx]
      rw [hstep]
      rcases ih best with ⟨heq, hall⟩ | ⟨i, hi, heq, hgt, hfirst, hle⟩
      · left
        refine ⟨heq, ?_⟩
        intro y hy
        rcases List.mem_cons.mp hy with hy | hy
        · subst hy; exact hxle
        · exact hall y hy
      · right
        refine ⟨i + 1, by simpa using Nat.succ_lt_succ hi, heq, hgt, ?_, ?_⟩
        · intro j hj hji
          cases j with
          | zero => exact lt_of_le_of_lt hxle hgt
          | succ m =>
            have hm : m < t.length := by simpa using hj
            exact hfirst m hm (by omega)
        · intro j hj
          cases j with
          | zero => exact le_of_lt (lt_of_le_of_lt hxle hgt)
          | succ m =>
            have hm : m < t.length := by simpa using hj
            exact hle m hm

lemma chopLit_eq_some (lit s r : List Char) :
    chopLit lit s = some r ↔ s = lit ++ r := by
  induction lit generalizing s with
  | nil => simp [chopLit]
  | cons l ls ih =>
    cases s with
    | nil => simp [chopLit]
    | cons c cs =>
      by_cases hc : c = l
      · subst hc
        simp [chopLit, ih]
      · simp [chopLit, hc]

lemma takeWhile_dropWhile_split (pid rest2 : List Char)
    (hnp : ∀ c ∈ pid, (c != '/') = true)
    (h0 : rest2 = [] ∨ ∃ t2, rest2 = '/' :: t2) :
    (pid ++ rest2).takeWhile (fun c => c != '/') = pid ∧
    (pid ++ rest2).dropWhile (fun c => c != '/') = rest2 := by
  induction pid with
  | nil =>
    rcases h0 with h | ⟨t2, h⟩ <;> subst h <;>
      simp [List.takeWhile, List.dropWhile]
  | cons a as ih =>
    have ha := hnp a (List.mem_cons_self a as)
    have ih2 := ih fun c hc => hnp c (List.mem_cons_of_mem a hc)
    refine ⟨?_, ?_⟩
    · simpa [List.takeWhile_cons, ha] using ih2.1
    · simpa [List.dropWhile_cons, ha] using ih2.2

lemma matchProjectChatPath_eq_some (p pid : List Char) :
    matchProjectChatPath p = some pid ↔
      (p = ("/project/").toList ++ pid ++ ("/chat").toList ∧
        pid ≠ [] ∧ ∀ c ∈ pid, c ≠ '/') := by
  constructor
  · intro h
    unfold matchProjectChatPath at h
    cases hc : chopLit projLit p with
    | none => rw [hc] at h; cases h
    | some rest =>
      rw [hc] at h
      have h1 : (if rest.takeWhile (fun c => c != '/') ≠ [] ∧
            rest.dropWhile (fun c => c != '/') = chatLit
          then some (rest.takeWhile (fun c => c != '/'))
          else none) = some pid := h
      by_cases hcond : rest.takeWhile (fun c => c != '/') ≠ [] ∧
          rest.dropWhile (fun c => c != '/') = chatLit
      · rw [if_pos hcond] at h1
        injection h1 with h2
        obtain ⟨hne, hchat⟩ := hcond
        have hp : p = projLit ++ rest := (chopLit_eq_some projLit p rest).mp hc
        have hsplit : rest.takeWhile (fun c => c != '/') ++
            rest.dropWhile (fun c => c != '/') = rest :=
          List.takeWhile_append_dropWhile _ _
        refine ⟨?_, ?_, ?_⟩
        · rw [hp, ← hsplit, hchat, h2, List.append_assoc]; rfl
        · rw [← h2]; exact hne
        · intro c hcm
          rw [← h2] at hcm
          have := List.mem_takeWhile_imp hcm
          simpa using this
      · rw [if_neg hcond] at h1; cases h1
  · rintro ⟨hp, hne, hnosl⟩
    have hchop : chopLit projLit p = some (pid ++ chatLit) := by
      rw [chopLit_eq_some, hp, List.append_assoc]; rfl
    have hchat : chatLit = '/' :: ("chat").toList := rfl
    have hsplit := takeWhile_dropWhile_split pid chatLit
      (fun c hcm => by simpa using hnosl c hcm)
      (Or.inr ⟨("chat").toList, hchat⟩)
    have h1 : (if (pid ++ chatLit).takeWhile (fun c => c != '/') ≠ [] ∧
          (pid ++ chatLit).dropWhile (fun c => c != '/') = chatLit
        then some ((pid ++ chatLit).takeWhile (fun c => c != '/'))
        else none) = some pid := by
      rw [if_pos ⟨by rw [hsplit.1]; exact hne, hsplit.2⟩, hsplit.1]
    calc matchProjectChatPath p
        = (if (pid ++ chatLit).takeWhile (fun c => c != '/') ≠ [] ∧
              (pid ++ chatLit).dropWhile (fun c => c != '/') = chatLit
            then some ((pid ++ chatLit).takeWhile (fun c => c != '/'))
            else none) := by
          unfold matchProjectChatPath
          rw [hchop]
      _ = some pid := h1

lemma enum_map_eq_zipWith (f : Nat → Question → String) (l : List Question) :
    l.enum.map (fun p => f p.1 p.2) = List.zipWith f (List.range l.length) l := by
  rw [List.enum_eq_zip_range]
  exact List.map_zipWith _ _ _ _

lemma validateAnalysis_none_of_bad (o : Option JsonValue)
    (hbad : o = none ∨
      (∃ v, o = some v ∧ ∀ b : Bool, getProp v "hasContent" ≠ some (JsonValue.bool b)) ∨
      (∃ v, o = some v ∧ getProp v "hasContent" = some (JsonValue.bool true) ∧
        ∀ s : String, getProp v "content" ≠ some (JsonValue.str s))) :
    validateAnalysis o = none := by
  rcases hbad with h | ⟨v, hv, hb⟩ | ⟨v, hv, hhc, hs⟩
  · subst h; rfl
  · subst hv
    simp only [validateAnalysis]
    cases hg : getProp v "hasContent" with
    | none => rfl
    | some j =>
      cases j with
      | bool b => exact absurd hg (hb b)
      | null => rfl
      | num q => rfl
      | str s => rfl
      | arr elems => rfl
      | obj fields => rfl
  · subst hv
    simp only [validateAnalysis]
    rw [hhc]

lemma validateAnalysis_claim (v : JsonValue) (c : String)
    (hhc : getProp v "hasContent" = some (JsonValue.bool true))
    (hcontent : getProp v "content" = some (JsonValue.str c)) :
    validateAnalysis (some v) = some (ClaimAnalysis.claim c) := by
  simp only [validateAnalysis]
  rw [hhc, hcontent]

lemma buildExtractionPrompt_lastN (h : List ChatMessage) (um : String) :
    buildExtractionPrompt h um = buildExtractionPrompt (lastN 5 h) um := by
  simp only [buildExtractionPrompt]
  rw [lastN_idem]

lemma buildHistoryTurns_lastN (h : List ChatMessage) :
    buildHistoryTurns h = buildHistoryTurns (lastN 5 h) := by
  simp only [buildHistoryTurns]
  rw [lastN_idem]

lemma analyzeUserMessage_lastN (um : String) (h : List ChatMessage)
    (jp : String → Option JsonValue) (ext : String → Except Unit String)
    (post : String → Except Unit CommentResponse) :
    analyzeUserMessage um h jp ext post = analyzeUserMessage um (lastN 5 h) jp ext post := by
  unfold analyzeUserMessage
  rw [buildExtractionPrompt_lastN h um]

/-! ## Claim theorems -/

/-- Claim C8: the question-list formatter returns the fixed "no questions
configured" sentence on an empty question list, and otherwise a header line
followed by one `<i>. <text>` line per question, numbered from 1 in the
original list order. -/
theorem formatQuestionsList_spec :
    formatQuestionsList [] = "論点はまだ設定されていません。" ∧
    ∀ qs : List Question, qs ≠ [] →
      formatQuestionsList qs =
        "論点一覧:\n" ++ String.intercalate "\n"
          (List.zipWith (fun i q => toString (i + 1) ++ ". " ++ q.text)
            (List.range qs.length) qs) := by
  constructor
  · rfl
  · intro qs hqs
    have hlen : ¬ qs.length = 0 := by
      cases qs with
      | nil => exact absurd rfl hqs
      | cons a t => simp
    simp only [formatQuestionsList, if_neg hlen]
    rw [enum_map_eq_zipWith (fun i q => toString (i + 1) ++ ". " ++ q.text) qs]

/-- Witness for C8: one question "Should X?" yields the two-line reply of
spec Scenario A; two questions yield a numbered two-line list. -/
theorem formatQuestionsList_spec_witness :
    formatQuestionsList [{ id := "q1", text := "Should X?" }] = "論点一覧:\n1. Should X?" ∧
    formatQuestionsList [{ id := "q1", text := "Q1" }, { id := "q2", text := "Q2" }] =
      "論点一覧:\n1. Q1\n2. Q2" := by
  constructor
  · rw [formatQuestionsList_spec.2 [{ id := "q1", text := "Should X?" }] (by decide)]
    decide
  · rw [formatQuestionsList_spec.2 [{ id := "q1", text := "Q1" }, { id := "q2", text := "Q2" }]
      (by decide)]
    decide

/-- Claim C9: the upgrade handshake completes (and a project-scoped session is
created) for project id `pid` iff the request path is exactly
`/project/` ++ pid ++ `/chat` with `pid` a non-empty segment containing no
slash; every other path — including an absent request url — destroys the
socket without any reply frame. -/
theorem upgrade_accepts_iff (p : List Char) :
    (∀ pid, handleUpgrade (some p) = UpgradeOutcome.accepted pid ↔
      (p = ("/project/").toList ++ pid ++ ("/chat").toList ∧
        pid ≠ [] ∧ ∀ c ∈ pid, c ≠ '/')) ∧
    (handleUpgrade (some p) = UpgradeOutcome.destroyed ↔
      ¬ ∃ pid, p = ("/project/").toList ++ pid ++ ("/chat").toList ∧
        pid ≠ [] ∧ ∀ c ∈ pid, c ≠ '/') ∧
    handleUpgrade none = UpgradeOutcome.destroyed := by
  have hred : handleUpgrade (some p) =
      (match matchProjectChatPath p with
       | none => UpgradeOutcome.destroyed
       | some pid => UpgradeOutcome.accepted pid) := rfl
  have hmain : ∀ pid, handleUpgrade (some p) = UpgradeOutcome.accepted pid ↔
      (p = ("/project/").toList ++ pid ++ ("/chat").toList ∧
        pid ≠ [] ∧ ∀ c ∈ pid, c ≠ '/') := by
    intro pid
    rw [hred]
    constructor
    · intro h
      cases hm : matchProjectChatPath p with
      | none => rw [hm] at h; cases h
      | some pid2 =>
        rw [hm] at h
        injection h with h2
        subst h2
        exact (matchProjectChatPath_eq_some p pid2).mp hm
    · intro hdecomp
      have hm := (matchProjectChatPath_eq_some p pid).mpr hdecomp
      rw [hm]
  refine ⟨hmain, ?_, rfl⟩
  constructor
  · rintro h ⟨pid, hdec⟩
    rw [(hmain pid).mpr hdec] at h
    cases h
  · intro hno
    rw [hred]
    cases hm : matchProjectChatPath p with
    | none => rfl
    | some pid =>
      exact absurd ⟨pid, (matchProjectChatPath_eq_some p pid).mp hm⟩ hno

/-- Witness for C9: `/project/abc/chat` is accepted with project id `abc`;
`/projects/abc/chat` is destroyed. -/
theorem upgrade_accepts_iff_witness :
    handleUpgrade (some (("/project/abc/chat").toList)) =
      UpgradeOutcome.accepted (("abc").toList) ∧
    handleUpgrade (some (("/projects/abc/chat").toList)) = UpgradeOutcome.destroyed := by
  constructor
  · exact ((upgrade_accepts_iff (("/project/abc/chat").toList)).1 (("abc").toList)).mpr
      ⟨by decide, by decide, by decide⟩
  · decide

/-- The concrete related-question list of spec §8 "Context selection":
classified confidences 0.4, 0.9, 0.6 across three questions. -/
def rqsDemo : List RelatedQuestion :=
  [{ id := "qa", text := "A", stanceId := "s1", confidence := 0.4 },
   { id := "qb", text := "B", stanceId := "s2", confidence := 0.9 },
   { id := "qc", text := "C", stanceId := "s3", confidence := 0.6 }]

/-- Claim C3: on a non-empty `relatedQuestions` list the resolver selects
exactly an entry of maximum confidence, and every entry strictly earlier in
list order has strictly smaller confidence — so the first occurrence of a
tied maximum wins. -/
theorem selectPrimary_first_max (rqs : List RelatedQuestion) (h : rqs ≠ []) :
    ∃ i, ∃ hi : i < rqs.length,
      selectPrimary rqs = some (rqs.get ⟨i, hi⟩) ∧
      (∀ j, ∀ hj : j < rqs.length,
        (rqs.get ⟨j, hj⟩).confidence ≤ (rqs.get ⟨i, hi⟩).confidence) ∧
      (∀ j, ∀ hj : j < rqs.length, j < i →
        (rqs.get ⟨j, hj⟩).confidence < (rqs.get ⟨i, hi⟩).confidence) := by
  cases rqs with
  | nil => exact absurd rfl h
  | cons a t =>
    rcases foldl_bestStep_spec a t with ⟨heq, hall⟩ | ⟨i, hi, heq, hgt, hfirst, hle⟩
    · refine ⟨0, by simp, ?_, ?_, ?_⟩
      · simp only [selectPrimary]
        rw [heq]
        rfl
      · intro j hj
        cases j with
        | zero => exact le_refl _
        | succ m =>
          have hm : m < t.length := by simpa using hj
          exact hall _ (List.get_mem t m hm)
      · intro j hj hji
        omega
    · refine ⟨i + 1, by simpa using Nat.succ_lt_succ hi, ?_, ?_, ?_⟩
      · simp only [selectPrimary]
        rw [heq]
        rfl
      · intro j hj
        cases j with
        | zero => exact le_of_lt hgt
        | succ m => exact hle m (by simpa using hj)
      · intro j hj hji
        cases j with
        | zero => exact hgt
        | succ m => exact hfirst m (by simpa using hj) (by omega)

/-- Witness for C3: on confidences [0.4, 0.9, 0.6] the selected entry is the
one with confidence 0.9 (spec §8 "Context selection"). -/
theorem selectPrimary_first_max_witness :
    rqsDemo ≠ [] ∧
    (∃ i, ∃ hi : i < rqsDemo.length,
      selectPrimary rqsDemo = some (rqsDemo.get ⟨i, hi⟩) ∧
      (∀ j, ∀ hj : j < rqsDemo.length,
        (rqsDemo.get ⟨j, hj⟩).confidence ≤ (rqsDemo.get ⟨i, hi⟩).confidence) ∧
      (∀ j, ∀ hj : j < rqsDemo.length, j < i →
        (rqsDemo.get ⟨j, hj⟩).confidence < (rqsDemo.get ⟨i, hi⟩).confidence)) ∧
    selectPrimary rqsDemo =
      some { id := "qb", text := "B", stanceId := "s2", confidence := 0.9 } :=
  ⟨by decide, selectPrimary_first_max rqsDemo (by decide), by
    simp only [rqsDemo, selectPrimary, bestStep, List.foldl]
    norm_num⟩

lemma filterMap_stances_head (l : List AnalyzedQuestion) :
    (l.filterMap fun q =>
      match q.stances with
      | [] => none
      | stance :: _ =>
        some ({ id := q.id, text := q.text, stanceId := stance.stanceId,
                confidence := stance.confidence } : RelatedQuestion))
    = l.filterMap fun q =>
        q.stances.head?.map fun st =>
          ({ id := q.id, text := q.text, stanceId := st.stanceId,
             confidence := st.confidence } : RelatedQuestion) := by
  induction l with
  | nil => rfl
  | cons q t ih =>
    cases hq : q.stances with
    | nil => simp [List.filterMap_cons, hq, ih]
    | cons st rest => simp [List.filterMap_cons, hq, ih]

lemma length_pos_if_eq (rqs : List RelatedQuestion) :
    (if rqs.length > 0 then some rqs else none) =
      (if rqs = [] then none else some rqs) := by
  cases rqs <;> simp

/-- Claim C2: a claim-extraction model reply that is not valid JSON, or whose
`hasContent` field is absent or not a boolean, or has `hasContent` true with
`content` not a string, makes `analyzeUserMessage` return the empty result —
no comment id, no related questions — with the backend comment POST never
reached; the failure does not escape the stage (the function is total). -/
theorem analyzeUserMessage_invalid_reply_empty
    (um : String) (hist : List ChatMessage)
    (jp : String → Option JsonValue) (ext : String → Except Unit String)
    (post : String → Except Unit CommentResponse) (raw : String)
    (hok : ext (buildExtractionPrompt hist um) = Except.ok raw)
    (hbad : jp (jsTrim raw) = none ∨
      (∃ v, jp (jsTrim raw) = some v ∧
        ∀ b : Bool, getProp v "hasContent" ≠ some (JsonValue.bool b)) ∨
      (∃ v, jp (jsTrim raw) = some v ∧
        getProp v "hasContent" = some (JsonValue.bool true) ∧
        ∀ s : String, getProp v "content" ≠ some (JsonValue.str s))) :
    analyzeUserMessage um hist jp ext post = (emptyAnalysis, false) := by
  have hval := validateAnalysis_none_of_bad (jp (jsTrim raw)) hbad
  simp only [analyzeUserMessage, hok, hval]

/-- Witness for C2: a reply that fails to parse as JSON yields the empty
result and no POST. -/
theorem analyzeUserMessage_invalid_reply_empty_witness :
    analyzeUserMessage "hi" [] (fun _ => none) (fun _ => Except.ok "not json")
      (fun _ => Except.error ()) = (emptyAnalysis, false) :=
  analyzeUserMessage_invalid_reply_empty "hi" [] (fun _ => none)
    (fun _ => Except.ok "not json") (fun _ => Except.error ()) "not json"
    rfl (Or.inl rfl)

/-- Claim C5: when a claim was extracted and submitted, each analyzed question
contributes its first stance entry, questions with an empty stance list are
dropped (an empty survivor list is reported as "no related questions"), and
an HTTP failure of the POST degrades to the empty result instead of raising. -/
theorem analyzeUserMessage_submission
    (um : String) (hist : List ChatMessage)
    (jp : String → Option JsonValue) (ext : String → Except Unit String)
    (post : String → Except Unit CommentResponse) (raw : String)
    (v : JsonValue) (c : String)
    (hok : ext (buildExtractionPrompt hist um) = Except.ok raw)
    (hv : jp (jsTrim raw) = some v)
    (hhc : getProp v "hasContent" = some (JsonValue.bool true))
    (hcontent : getProp v "content" = some (JsonValue.str c)) :
    (∀ resp, post c = Except.ok resp →
      analyzeUserMessage um hist jp ext post =
        ({ commentId := some resp.commentId,
           relatedQuestions :=
             if (resp.analyzedQuestions.filterMap fun q =>
                   q.stances.head?.map fun st =>
                     ({ id := q.id, text := q.text, stanceId := st.stanceId,
                        confidence := st.confidence } : RelatedQuestion)) = []
             then none
             else some (resp.analyzedQuestions.filterMap fun q =>
                   q.stances.head?.map fun st =>
                     ({ id := q.id, text := q.text, stanceId := st.stanceId,
                        confidence := st.confidence } : RelatedQuestion)) }, true)) ∧
    (post c = Except.error () →
      analyzeUserMessage um hist jp ext post = (emptyAnalysis, true)) := by
  have hval : validateAnalysis (jp (jsTrim raw)) = some (ClaimAnalysis.claim c) := by
    rw [hv]
    exact validateAnalysis_claim v c hhc hcontent
  constructor
  · intro resp hpost
    simp only [analyzeUserMessage, hok, hval, hpost]
    rw [filterMap_stances_head, length_pos_if_eq]
  · intro hpost
    simp only [analyzeUserMessage, hok, hval, hpost]

/-- The parsed extraction reply used by the C5 witness: a well-formed claim
object. -/
def vDemo : JsonValue :=
  JsonValue.obj [("hasContent", JsonValue.bool true), ("content", JsonValue.str "claim")]

/-- The backend comment response used by the C5 witness: one question with a
ranked stance list, one question with no stances. -/
def respDemo : CommentResponse :=
  { commentId := "c1",
    analyzedQuestions :=
      [{ id := "q1", text := "T1",
         stances := [{ questionId := "q1", stanceId := "yes", confidence := 0.9 },
                     { questionId := "q1", stanceId := "no", confidence := 0.1 }] },
       { id := "q2", text := "T2", stances := [] }] }

/-- Witness for C5: the first stance of q1 survives, q2 (no stances) is
dropped, and a failing POST yields the empty result. -/
theorem analyzeUserMessage_submission_witness :
    analyzeUserMessage "opinion" [] (fun _ => some vDemo) (fun _ => Except.ok "raw")
        (fun _ => Except.ok respDemo) =
      ({ commentId := some "c1",
         relatedQuestions :=
           some [{ id := "q1", text := "T1", stanceId := "yes", confidence := 0.9 }] },
       true) ∧
    analyzeUserMessage "opinion" [] (fun _ => some vDemo) (fun _ => Except.ok "raw")
        (fun _ => Except.error ()) = (emptyAnalysis, true) := by
  constructor
  · rw [(analyzeUserMessage_submission "opinion" [] (fun _ => some vDemo)
      (fun _ => Except.ok "raw") (fun _ => Except.ok respDemo) "raw" vDemo "claim"
      rfl rfl rfl rfl).1 respDemo rfl]
    rfl
  · exact (analyzeUserMessage_submission "opinion" [] (fun _ => some vDemo)
      (fun _ => Except.ok "raw") (fun _ => Except.error ()) "raw" vDemo "claim"
      rfl rfl rfl rfl).2 rfl

/-- Claim C6: a `"message"` frame for a session id the store does not know
makes the orchestrator emit exactly the `Session not found` error frame,
run no generation and append no bot message (the store is unchanged), and
leave the connection open. -/
theorem unknown_session_guard (store : SessionStore) (sid content : String)
    (fetchProject : Except Unit (Option (List Question)))
    (generate : List Question → List ChatMessage → String)
    (h : List.lookup sid store = none) :
    handleMessageFrame store sid content fetchProject generate =
      ({ errorFrame := some "Session not found", outFrame := none,
         generateInvoked := false, connectionClosed := false }, store) := by
  simp only [handleMessageFrame, storeAddMessage_unknown store sid content Sender.user h]

/-- Witness for C6: an empty store knows no session. -/
theorem unknown_session_guard_witness :
    handleMessageFrame [] "s1" "hello" (Except.ok none) (fun _ _ => "reply") =
      ({ errorFrame := some "Session not found", outFrame := none,
         generateInvoked := false, connectionClosed := false }, []) :=
  unknown_session_guard [] "s1" "hello" (Except.ok none) (fun _ _ => "reply") rfl

/-- Counterexample for C1 as stated: the content `" questions"` (leading
space) trims and case-folds to the command token, so the claim requires the
bypass, yet the orchestrator takes the full generation branch — the source
(line 333) compares `message.content.toLowerCase()` without trimming. -/
theorem trimmed_command_not_bypassed :
    jsToLower (jsTrim " questions") = "questions" ∧
    (handleMessageFrame [("s1", [])] "s1" " questions" (Except.ok none)
      (fun _ _ => "generated")).1.generateInvoked = true := by
  constructor
  · decide
  · decide

/-- Claim C1 (amended): for a known session, the questions-command bypass is
taken — no generation, reply is the formatted question list — exactly when
the case-folded content, with no trimming, equals `questions`; otherwise the
full pipeline runs and the reply is the generated text.  Either way the
reply is a normal bot message. -/
theorem dispatch_lowercase_exact (store : SessionStore) (sid content : String)
    (fetchProject : Except Unit (Option (List Question)))
    (generate : List Question → List ChatMessage → String)
    (hist : List ChatMessage) (h : List.lookup sid store = some hist) :
    ((handleMessageFrame store sid content fetchProject generate).1.generateInvoked = false ↔
      jsToLower content = "questions") ∧
    (jsToLower content = "questions" →
      (handleMessageFrame store sid content fetchProject generate).1.outFrame =
        some { sender := Sender.bot,
               content := formatQuestionsList (getProjectQuestions fetchProject) }) ∧
    (jsToLower content ≠ "questions" →
      (handleMessageFrame store sid content fetchProject generate).1.outFrame =
        some { sender := Sender.bot,
               content := generate (getProjectQuestions fetchProject)
                 (hist ++ [{ sender := Sender.user, content := content }]) }) ∧
    (handleMessageFrame store sid content fetchProject generate).1.errorFrame = none := by
  rw [handleMessageFrame_known_fst store sid content fetchProject generate hist h]
  refine ⟨?_, ?_, ?_, rfl⟩
  · constructor
    · intro hinv
      have hb : (jsToLower content == "questions") = true := by
        cases hb2 : jsToLower content == "questions" with
        | true => rfl
        | false =>
          have hinv2 : (!(jsToLower content == "questions")) = false := hinv
          rw [hb2] at hinv2
          simp at hinv2
      exact eq_of_beq hb
    · intro heq
      simp [heq]
  · intro heq
    simp [heq]
  · intro hne
    have hb : (jsToLower content == "questions") = false := beq_eq_false_iff_ne.mpr hne
    simp [hb]

/-- Witness for C1 (amended): `QUESTIONS` (any casing, untrimmed) takes the
bypass; `hello` runs the pipeline. -/
theorem dispatch_lowercase_exact_witness :
    (handleMessageFrame [("s1", [])] "s1" "QUESTIONS" (Except.ok none)
      (fun _ _ => "generated")).1.generateInvoked = false ∧
    (handleMessageFrame [("s1", [])] "s1" "hello" (Except.ok none)
      (fun _ _ => "generated")).1.generateInvoked = true := by
  constructor
  · exact ((dispatch_lowercase_exact [("s1", [])] "s1" "QUESTIONS" (Except.ok none)
      (fun _ _ => "generated") [] rfl).1).mpr (by decide)
  · decide

/-- Claim C10: a failing backend `GET /projects/:id` degrades to the empty
question list, so the `questions` command replies with the "no questions
configured" sentence and the generation branch proceeds with an empty
question list — in both cases a normal bot reply, never an error frame. -/
theorem backend_outage_degrades (store : SessionStore) (sid content : String)
    (generate : List Question → List ChatMessage → String)
    (hist : List ChatMessage) (h : List.lookup sid store = some hist) :
    getProjectQuestions (Except.error ()) = [] ∧
    (handleMessageFrame store sid "questions" (Except.error ()) generate).1.outFrame =
      some { sender := Sender.bot, content := "論点はまだ設定されていません。" } ∧
    (handleMessageFrame store sid "questions" (Except.error ()) generate).1.errorFrame =
      none ∧
    (jsToLower content ≠ "questions" →
      (handleMessageFrame store sid content (Except.error ()) generate).1.outFrame =
        some { sender := Sender.bot,
               content := generate []
                 (hist ++ [{ sender := Sender.user, content := content }]) } ∧
      (handleMessageFrame store sid content (Except.error ()) generate).1.errorFrame =
        none) := by
  refine ⟨rfl, ?_, ?_, ?_⟩
  · rw [handleMessageFrame_known_fst store sid "questions" (Except.error ()) generate hist h]
    have hq : (jsToLower "questions" == "questions") = true := by decide
    simp [hq]
    rfl
  · rw [handleMessageFrame_known_fst store sid "questions" (Except.error ()) generate hist h]
  · intro hne
    rw [handleMessageFrame_known_fst store sid content (Except.error ()) generate hist h]
    have hb : (jsToLower content == "questions") = false := beq_eq_false_iff_ne.mpr hne
    constructor
    · simp [hb]
      rfl
    · rfl

/-- Witness for C10: concrete store, `questions` command and a free-text turn
under a backend outage. -/
theorem backend_outage_degrades_witness :
    (handleMessageFrame [("s1", [])] "s1" "questions" (Except.error ())
      (fun _ _ => "generated")).1.outFrame =
      some { sender := Sender.bot, content := "論点はまだ設定されていません。" } ∧
    (handleMessageFrame [("s1", [])] "s1" "hello" (Except.error ())
      (fun qs _ => if qs = [] then "empty-question generation" else "nonempty")).1.outFrame =
      some { sender := Sender.bot, content := "empty-question generation" } := by
  constructor
  · exact (backend_outage_degrades [("s1", [])] "s1" "hello"
      (fun _ _ => "generated") [] rfl).2.1
  · have h := ((backend_outage_degrades [("s1", [])] "s1" "hello"
      (fun qs _ => if qs = [] then "empty-question generation" else "nonempty") [] rfl).2.2.2
      (by decide)).1
    rw [h]
    rfl

/-- Claim C7: both stages see at most the 5 most recent history entries —
the extraction prompt and the generation turn list are invariant under
truncating the history to its last 5 entries, the generated turn list never
exceeds 5 turns, each turn maps a `user` sender to the `user` role and a
`bot` sender to the model-side (`model`) role, and `generateResponse` as a
whole depends on the history only through its last 5 entries. -/
theorem history_truncation (um : String) (h : List ChatMessage)
    (qs : List Question)
    (jp : String → Option JsonValue) (ext : String → Except Unit String)
    (post : String → Except Unit CommentResponse)
    (rep : String → Except Unit String)
    (gen : List GeminiMessage → Except Unit String) :
    buildExtractionPrompt h um = buildExtractionPrompt (lastN 5 h) um ∧
    buildHistoryTurns h = buildHistoryTurns (lastN 5 h) ∧
    (buildHistoryTurns h).length ≤ 5 ∧
    (∀ t ∈ buildHistoryTurns h, ∃ m ∈ h,
      t.role = (if m.sender = Sender.user then "user" else "model") ∧
      t.text = m.content) ∧
    generateResponse um qs h jp ext post rep gen =
      generateResponse um qs (lastN 5 h) jp ext post rep gen := by
  refine ⟨buildExtractionPrompt_lastN h um, buildHistoryTurns_lastN h, ?_, ?_, ?_⟩
  · simp only [buildHistoryTurns, List.length_map]
    exact lastN_length_le 5 h
  · intro t ht
    simp only [buildHistoryTurns, List.mem_map] at ht
    obtain ⟨m, hm, rfl⟩ := ht
    exact ⟨m, lastN_subset 5 h hm, rfl, rfl⟩
  · have h1 := analyzeUserMessage_lastN um h jp ext post
    have h2 := buildHistoryTurns_lastN h
    simp only [generateResponse, buildConversation, h1, h2]

/-- The 7-entry history used by the C7 witness. -/
def hist7 : List ChatMessage :=
  [{ sender := Sender.user, content := "m1" }, { sender := Sender.bot, content := "m2" },
   { sender := Sender.user, content := "m3" }, { sender := Sender.bot, content := "m4" },
   { sender := Sender.user, content := "m5" }, { sender := Sender.bot, content := "m6" },
   { sender := Sender.user, content := "m7" }]

/-- Witness for C7: a 7-entry history is capped at 5 turns and both prompts
agree with their last-5 truncations. -/
theorem history_truncation_witness :
    (buildHistoryTurns hist7).length ≤ 5 ∧
    buildExtractionPrompt hist7 "hi" = buildExtractionPrompt (lastN 5 hist7) "hi" ∧
    (buildHistoryTurns hist7).length = 5 :=
  ⟨(history_truncation "hi" hist7 [] (fun _ => none) (fun _ => Except.error ())
      (fun _ => Except.error ()) (fun _ => Except.error ())
      (fun _ => Except.error ())).2.2.1,
   (history_truncation "hi" hist7 [] (fun _ => none) (fun _ => Except.error ())
      (fun _ => Except.error ()) (fun _ => Except.error ())
      (fun _ => Except.error ())).1,
   by decide⟩

/-- Claim C4: `generateResponse` is total — its result is either a text the
generation call returned or the fixed apology; when every generation call
fails, the result is exactly the apology string, and for a known session the
orchestrator still emits it as a normal bot message with no error frame. -/
theorem generateResponse_failure_apology (um : String) (qs : List Question)
    (h : List ChatMessage)
    (jp : String → Option JsonValue) (ext : String → Except Unit String)
    (post : String → Except Unit CommentResponse)
    (rep : String → Except Unit String)
    (gen : List GeminiMessage → Except Unit String) :
    ((∃ msgs, gen msgs = Except.ok (generateResponse um qs h jp ext post rep gen)) ∨
      generateResponse um qs h jp ext post rep gen = apologyMessage) ∧
    ((∀ msgs, gen msgs = Except.error ()) →
      generateResponse um qs h jp ext post rep gen = apologyMessage) ∧
    (∀ store : SessionStore, ∀ sid : String, ∀ hist2 : List ChatMessage,
      ∀ fetch : Except Unit (Option (List Question)),
      List.lookup sid store = some hist2 →
      (handleMessageFrame store sid um fetch
        (fun qs2 hist3 => generateResponse um qs2 hist3 jp ext post rep gen)).1.errorFrame
        = none) := by
  refine ⟨?_, ?_, ?_⟩
  · cases hg : gen (buildConversation qs
        (resolveContext (analyzeUserMessage um h jp ext post).1 rep) h um) with
    | error e =>
      right
      simp only [generateResponse, hg]
    | ok t =>
      left
      refine ⟨buildConversation qs
        (resolveContext (analyzeUserMessage um h jp ext post).1 rep) h um, ?_⟩
      rw [hg]
      congr 1
      simp only [generateResponse, hg]
  · intro hfail
    simp only [generateResponse, hfail]
  · intro store sid hist2 fetch hlook
    rw [handleMessageFrame_known_fst store sid um fetch
      (fun qs2 hist3 => generateResponse um qs2 hist3 jp ext post rep gen) hist2 hlook]

/-- Witness for C4: with every external call failing, the reply is the fixed
apology, and a known session still gets it as a normal bot frame. -/
theorem generateResponse_failure_apology_witness :
    generateResponse "hi" [] [] (fun _ => none) (fun _ => Except.error ())
      (fun _ => Except.error ()) (fun _ => Except.error ())
      (fun _ => Except.error ()) = apologyMessage ∧
    (handleMessageFrame [("s1", [])] "s1" "hi" (Except.error ())
      (fun qs2 hist3 => generateResponse "hi" qs2 hist3 (fun _ => none)
        (fun _ => Except.error ()) (fun _ => Except.error ())
        (fun _ => Except.error ()) (fun _ => Except.error ()))).1.errorFrame = none :=
  ⟨(generateResponse_failure_apology "hi" [] [] (fun _ => none) (fun _ => Except.error ())
      (fun _ => Except.error ()) (fun _ => Except.error ())
      (fun _ => Except.error ())).2.1 (fun _ => rfl),
   (generateResponse_failure_apology "hi" [] [] (fun _ => none) (fun _ => Except.error ())
      (fun _ => Except.error ()) (fun _ => Except.error ())
      (fun _ => Except.error ())).2.2 [("s1", [])] "s1" [] (Except.error ()) rfl⟩
